import Mathlib

/-!
Verification development for the `loaned` crate: an ownership-transfer
primitive letting a caller extract a long-lived reference into the pointee of
an owned indirect value (`Box`, `Rc`, ...), later move the owner, and finish
the transfer through a placement protocol.

The embedding has two layers, both translated from the source:

* a dynamic layer: payload `Box<V>` values are addresses into an explicit
  heap; `LoanedMut<'t, Box<V>>` is modelled by the `MaybeUninit<Box<V>>` bits
  it holds (an address); minting the borrow in `LoanedMut::loan`
  (src/loaned_mut.rs, lines 43-51) hands out that address; the `Place`
  implementations (src/place.rs) are modelled instruction by instruction,
  with an explicit list of drop events recording every destructor run;

* a static layer: an inductive `Ty` of the Rust types involved, with
  `mem::needs_drop`, the `Loanable` capability marker (src/loanable.rs), and
  the crate's `From` implementations as an inductive relation, used for the
  claims about trait bounds, drop diagnostics and conversions.
-/

namespace LoanedModel

/-- Heap addresses (the pointer inside a `Box<V>`). -/
abbrev Addr := Nat

/-- Pointee values stored behind a `Box`. -/
abbrev Val := Nat

/-- The heap: a cell per allocation; `none` once the box's destructor freed it. -/
abbrev Heap := List (Option Val)

/-- Allocate a fresh box holding `v` (what `Box::new(v)` does): extends the
heap and returns the new address. -/
def allocBox (h : Heap) (v : Val) : Heap × Addr :=
  (h ++ [some v], h.length)

/-- Read the pointee of address `a` (dereferencing the box). -/
def readAddr (h : Heap) (a : Addr) : Option Val :=
  (h.getD a none)

/-- Write `v` to the pointee of address `a` (a store through `&mut V`). -/
def writeAddr (h : Heap) (a : Addr) (v : Val) : Heap :=
  h.set a (some v)

/-- Run the destructor of the box at `old` (`ptr::drop_in_place` on a
`Box<V>` slot, src/place.rs lines 38-40): frees the pointee and emits one
drop event for the box. -/
def dropBoxInPlace (h : Heap) (old : Addr) : Heap × List Addr :=
  (h.set old none, [old])

/-- Run the drop glue of an `Option<Box<V>>` slot (`ptr::drop_in_place` in
the `Place for Option<T>` impl, src/place.rs lines 48-50): drops the inner
box when present, does nothing when absent. -/
def dropOptBoxInPlace (h : Heap) (old : Option Addr) : Heap × List Addr :=
  match old with
  | some b => dropBoxInPlace h b
  | none => (h, [])

/-- `MaybeUninit<T>`: possibly-uninitialized bits; `none` models
`MaybeUninit::uninit()`, `some v` models initialized bits holding `v`. -/
abbrev MaybeUninit (α : Type) := Option α

/-- `MaybeUninit::uninit()`. -/
def MaybeUninit.uninit {α : Type} : MaybeUninit α := none

/-- `LoanedMut<'t, T>` holds exactly the `MaybeUninit<T>` bits of its
payload (src/loaned_mut.rs lines 31-38); in every state the crate constructs
the bits are initialized, so the model stores the payload directly. -/
structure LoanedMut (α : Type) where
  inner : α

/-- `Loaned<'t, T>` holds its payload in a `RawLoaned<T>` union
(src/loaned.rs lines 30-37, src/raw_loaned.rs): same initialized bits. -/
structure Loaned (α : Type) where
  inner : α

/-- `LoanedMut::new` (src/loaned_mut.rs lines 53-57): wrap the value, no
reference minted, no bound on the payload type. -/
def LoanedMut.new {α : Type} (value : α) : LoanedMut α :=
  ⟨value⟩

/-- `Loaned::new` (src/loaned.rs lines 75-79): wrap the value, no reference
minted, no bound on the payload type. -/
def Loaned.new {α : Type} (value : α) : Loaned α :=
  ⟨value⟩

/-- `LoanedMut::loan` on a `Box<Val>` (src/loaned_mut.rs lines 40-51):
stores the box in the `MaybeUninit` cell and mints `&mut **inner`, the
address of the pointee, valid for `'t`. -/
def LoanedMut.loan (value : Addr) : Addr × LoanedMut Addr :=
  (value, ⟨value⟩)

/-- `Loaned::loan` on a `Box<Val>` (src/loaned.rs lines 62-72): stores the
box and mints `&**inner`, the shared address of the pointee. -/
def Loaned.loan (value : Addr) : Addr × Loaned Addr :=
  (value, ⟨value⟩)

/-- `Loaned::borrow` (src/loaned.rs lines 88-95): re-derives the shared
reference from the stored box. -/
def Loaned.borrow (l : Loaned Addr) : Addr :=
  l.inner

/-- A sequence of writes through a minted `&mut Val` at address `r`: each
step performs `*r = f(*r)`. -/
def applyWrites (h : Heap) (r : Addr) (ws : List (Val → Val)) : Heap :=
  ws.foldl (fun h f =>
    match readAddr h r with
    | some v => writeAddr h r (f v)
    | none => h) h

/-- The value a sequence of writes leaves behind, starting from `v`. -/
def mutate (v : Val) (ws : List (Val → Val)) : Val :=
  ws.foldl (fun v f => f v) v

/-- `Place<'t, T> for T` at `T = Box<Val>` (src/place.rs lines 34-43):
`drop_in_place` the old occupant, then write the handle's raw bits into the
slot. Returns the new slot contents, the heap, and the drop events. -/
def placeSame (loaned : LoanedMut Addr) (old : Addr) (h : Heap) :
    Addr × Heap × List Addr :=
  let (h, dropped) := dropBoxInPlace h old
  (loaned.inner, h, dropped)

/-- `_maybe_uninit_some` (src/place.rs lines 58-67): wraps initialized `T`
bits into initialized `Some(T)` bits without moving the value. -/
def maybeUninitSome {α : Type} (x : α) : Option α :=
  some x

/-- `Place<'t, T> for Option<T>` at `T = Box<Val>` (src/place.rs lines
45-56): `drop_in_place` the old `Option` occupant, then write the handle's
bits wrapped by `_maybe_uninit_some`. -/
def placeOption (loaned : LoanedMut Addr) (old : Option Addr) (h : Heap) :
    Option Addr × Heap × List Addr :=
  let (h, dropped) := dropOptBoxInPlace h old
  (maybeUninitSome loaned.inner, h, dropped)

/-- `Place<'t, T> for MaybeUninit<T>` (src/place.rs lines 27-32): plain
assignment of the handle's bits over the uninitialized slot; a
`MaybeUninit` has no drop glue, so no drop event is emitted. -/
def placeUninit {α : Type} (loaned : LoanedMut α) (_slot : MaybeUninit α) :
    MaybeUninit α × List Addr :=
  (some loaned.inner, [])

/-- `__take` (src/take.rs lines 43-47): place into a fresh
`MaybeUninit::uninit()` slot and `assume_init` it back out; `none` would
mean reading uninitialized bits, which never happens. -/
def __take {α : Type} (loaned : LoanedMut α) : Option α :=
  let place : MaybeUninit α := MaybeUninit.uninit
  (placeUninit loaned place).1

/-! Heap lemmas. -/

theorem readAddr_allocBox (h : Heap) (v : Val) :
    readAddr (allocBox h v).1 (allocBox h v).2 = some v := by
  simp [readAddr, allocBox, List.getD_eq_getElem?_getD, List.getElem?_concat_length]

theorem readAddr_allocBox_lt (h : Heap) (v : Val) (a : Addr) (ha : a < h.length) :
    readAddr (allocBox h v).1 a = readAddr h a := by
  simp only [readAddr, allocBox, List.getD_eq_getElem?_getD]
  rw [List.getElem?_append_left ha]

theorem readAddr_lt_length (h : Heap) (a : Addr) (v : Val)
    (hv : readAddr h a = some v) : a < h.length := by
  by_contra hcon
  simp only [readAddr, List.getD_eq_getElem?_getD,
    List.getElem?_eq_none (Nat.le_of_not_lt hcon), Option.getD_none] at hv
  exact Option.noConfusion hv

theorem readAddr_writeAddr_self (h : Heap) (a : Addr) (v : Val)
    (ha : a < h.length) : readAddr (writeAddr h a v) a = some v := by
  simp [readAddr, writeAddr, List.getD_eq_getElem?_getD, List.getElem?_set_self ha]

theorem readAddr_writeAddr_ne (h : Heap) (a b : Addr) (v : Val) (hab : b ≠ a) :
    readAddr (writeAddr h b v) a = readAddr h a := by
  simp [readAddr, writeAddr, List.getD_eq_getElem?_getD, List.getElem?_set_ne hab]

theorem length_writeAddr (h : Heap) (a : Addr) (v : Val) :
    (writeAddr h a v).length = h.length := by
  simp [writeAddr]

theorem readAddr_applyWrites_self (h : Heap) (r : Addr) (v : Val)
    (ws : List (Val → Val)) (hv : readAddr h r = some v) :
    readAddr (applyWrites h r ws) r = some (mutate v ws) := by
  induction ws generalizing h v with
  | nil => simpa [applyWrites, mutate] using hv
  | cons f ws ih =>
    have hr : r < h.length := readAddr_lt_length h r v hv
    have hstep : readAddr (writeAddr h r (f v)) r = some (f v) :=
      readAddr_writeAddr_self h r (f v) hr
    simpa [applyWrites, mutate, hv] using ih (writeAddr h r (f v)) (f v) hstep

theorem readAddr_applyWrites_ne (h : Heap) (r a : Addr)
    (ws : List (Val → Val)) (hra : r ≠ a) :
    readAddr (applyWrites h r ws) a = readAddr h a := by
  induction ws generalizing h with
  | nil => simp [applyWrites]
  | cons f ws ih =>
    simp only [applyWrites, List.foldl_cons]
    cases hread : readAddr h r with
    | none => simpa [applyWrites] using ih h
    | some v =>
      have := ih (writeAddr h r (f v))
      simpa [applyWrites, readAddr_writeAddr_ne _ _ _ _ hra] using this

theorem readAddr_dropBoxInPlace_ne (h : Heap) (old a : Addr) (hne : old ≠ a) :
    readAddr (dropBoxInPlace h old).1 a = readAddr h a := by
  simp [readAddr, dropBoxInPlace, List.getD_eq_getElem?_getD, List.getElem?_set_ne hne]

/-! Claim theorems: dynamic layer. -/

/-- C1. Reference validity across move: `LoanedMut::loan` on a freshly
allocated `Box v` mints a reference `r` and a handle; after a sequence of
writes through `r`, placing the handle into a same-type destination slot
(previously holding a different box `old`) leaves the slot holding a box
whose pointee is exactly the write-sequence's result on `v` — every write is
observable through the destination and nothing else happened to it. -/
theorem loan_place_reference_validity (h0 : Heap) (v : Val)
    (ws : List (Val → Val)) (old : Addr) (hold : old ≠ (allocBox h0 v).2) :
    (let (h1, b) := allocBox h0 v
     let (r, handle) := LoanedMut.loan b
     let h2 := applyWrites h1 r ws
     let (slot, h3, _) := placeSame handle old h2
     readAddr h3 slot = some (mutate v ws)) := by
  simp only [allocBox, LoanedMut.loan, placeSame, dropBoxInPlace]
  have hb : readAddr (h0 ++ [some v]) h0.length = some v := readAddr_allocBox h0 v
  have hws := readAddr_applyWrites_self (h0 ++ [some v]) h0.length v ws hb
  calc readAddr ((applyWrites (h0 ++ [some v]) h0.length ws).set old none) h0.length
      = readAddr (applyWrites (h0 ++ [some v]) h0.length ws) h0.length := by
        exact readAddr_dropBoxInPlace_ne _ old _ (by simpa [allocBox] using hold)
    _ = some (mutate v ws) := hws

theorem loan_place_reference_validity_witness :
    (0 : Addr) ≠ (allocBox [some 7] 5).2 ∧
    (let (h1, b) := allocBox [some 7] 5
     let (r, handle) := LoanedMut.loan b
     let h2 := applyWrites h1 r [fun x => x + 1, fun x => x * 2]
     let (slot, h3, _) := placeSame handle 0 h2
     readAddr h3 slot = some (mutate 5 [fun x => x + 1, fun x => x * 2])) :=
  ⟨by decide, loan_place_reference_validity [some 7] 5 _ 0 (by decide)⟩

/-- C2. Round-trip: `take!` on the handle minted by `LoanedMut::loan`
(placing into a fresh `MaybeUninit` slot and reading it back, as `__take`
does) returns exactly the loaned box; its pointee, in the heap reached by
the writes made through the minted reference, is the mutated form of `v`
(and `v` itself when no write happened). -/
theorem take_round_trip (h0 : Heap) (v : Val) (ws : List (Val → Val)) :
    (let (h1, b) := allocBox h0 v
     let (r, handle) := LoanedMut.loan b
     let h2 := applyWrites h1 r ws
     __take handle = some b ∧ readAddr h2 b = some (mutate v ws)) := by
  refine ⟨rfl, ?_⟩
  exact readAddr_applyWrites_self _ _ v ws (readAddr_allocBox h0 v)

/-- C3. Same-type slot placement: placing a handle over payload box `p` into
a slot previously holding box `old` emits exactly one drop event, on `old`;
the slot afterwards holds exactly `p`; when `p` and `old` are distinct boxes
the delivered payload is never dropped and its pointee is untouched. -/
theorem place_same_no_double_effect (p old : Addr) (h : Heap) :
    (let (slot, h', dropped) := placeSame ⟨p⟩ old h
     slot = p ∧ dropped = [old] ∧ dropped.count old = 1 ∧
     (p ≠ old → dropped.count p = 0 ∧ readAddr h' p = readAddr h p)) := by
  refine ⟨rfl, rfl, by simp, fun hne => ⟨by simp [hne], ?_⟩⟩
  exact readAddr_dropBoxInPlace_ne h old p (fun hcon => hne hcon.symm)

theorem place_same_no_double_effect_witness :
    (let (slot, h', dropped) := placeSame ⟨2⟩ 0 [some 7, some 8, some 9]
     slot = 2 ∧ dropped = [0] ∧ dropped.count 0 = 1 ∧
     ((2 : Addr) ≠ 0 → dropped.count 2 = 0 ∧
       readAddr h' 2 = readAddr [some 7, some 8, some 9] 2)) :=
  place_same_no_double_effect 2 0 [some 7, some 8, some 9]

/-- C4. Optional-slot placement: placing a handle over payload box `p` into
an `Option` slot drops the previous occupant exactly once when it was
`Some`, drops nothing when it was `None`, and leaves the slot holding
`Some p`. -/
theorem place_option_slot (p : Addr) (old : Option Addr) (h : Heap) :
    (let (slot, h', dropped) := placeOption ⟨p⟩ old h
     slot = some p ∧ dropped = old.toList ∧
     (∀ b, old = some b → dropped.count b = 1) ∧
     (old = none → dropped = [] ∧ h' = h)) := by
  cases old with
  | none =>
    refine ⟨rfl, rfl, ?_, ?_⟩
    · intro b hb
      cases hb
    · intro _
      exact ⟨rfl, rfl⟩
  | some b0 =>
    refine ⟨rfl, rfl, ?_, ?_⟩
    · intro b hb
      cases hb
      simp
    · intro hcon
      cases hcon

theorem place_option_slot_witness :
    (let (slot, h', dropped) := placeOption ⟨2⟩ (some 0) [some 7, some 8, some 9]
     slot = some 2 ∧ dropped = (some 0 : Option Addr).toList ∧
     (∀ b, (some 0 : Option Addr) = some b → dropped.count b = 1) ∧
     ((some 0 : Option Addr) = none →
       dropped = [] ∧ h' = [some 7, some 8, some 9])) :=
  place_option_slot 2 (some 0) [some 7, some 8, some 9]

/-! Composition combinators and structural conversions. -/

/-- `LoanedMut::merge` (src/loaned_mut.rs lines 120-135): start from
`value`, run the closure on a mutable view of the stored bits, and wrap the
result as a single handle; no heap access happens. -/
def LoanedMut.merge {α : Type} (value : α) (f : α → α) : LoanedMut α :=
  ⟨f value⟩

/-- `MergeMut::place` into a `MaybeUninit` field (src/loaned_mut.rs lines
144-149, delegating to the `Place for MaybeUninit` impl of src/place.rs
lines 27-32): overwrite the field with the sub-handle's bits, no drop. -/
def MergeMut.placeField {α : Type} (loaned : LoanedMut α)
    (slot : MaybeUninit α) : MaybeUninit α :=
  (placeUninit loaned slot).1

/-- `MaybeUninit::<(A, B)>::assume_init` reached through the structural
`MaybeUninit` conversion in the tuple `From` impl (src/convert.rs lines
55-66): defined exactly when both fields were initialized. -/
def assumeInitPair {α β : Type} : MaybeUninit α × MaybeUninit β → Option (α × β)
  | (some a, some b) => some (a, b)
  | _ => none

/-- `From<(LoanedMut<A>, LoanedMut<B>)> for LoanedMut<(A, B)>` (the pair
case of `tuple_impls`, src/convert.rs lines 49-69): merge over
`MaybeUninit::<(A, B)>::uninit()` — modelled field-wise as a pair of
`MaybeUninit` slots — placing each component handle into its field in
order, then `assume_init`. -/
def fromPairMut {α β : Type} (value : LoanedMut α × LoanedMut β) :
    Option (LoanedMut (α × β)) :=
  let t := LoanedMut.merge
    ((MaybeUninit.uninit, MaybeUninit.uninit) : MaybeUninit α × MaybeUninit β)
    (fun t =>
      let t := (MergeMut.placeField value.1 t.1, t.2)
      let t := (t.1, MergeMut.placeField value.2 t.2)
      t)
  (assumeInitPair t.inner).map (fun p => ⟨p⟩)

/-- `From<Vec<LoanedMut<T>>> for LoanedMut<Vec<T>>` (src/convert.rs lines
13-24, repeated in src/loaned_mut.rs lines 158-169): wrap the vector in
`ManuallyDrop` (so nothing is dropped) and rebuild it from the same raw
parts — same buffer, same length, each `repr(transparent)` handle reread as
its payload. -/
def fromVecMut {α : Type} (value : List (LoanedMut α)) : LoanedMut (List α) :=
  ⟨value.map LoanedMut.inner⟩

/-- `From<[LoanedMut<T>; N]> for LoanedMut<[T; N]>` (src/convert.rs lines
26-30): `transmute_copy` of the `ManuallyDrop`-wrapped array — an
element-wise reinterpretation of each transparent handle as its payload. -/
def fromArrMut {α : Type} {n : Nat} (value : Fin n → LoanedMut α) :
    LoanedMut (Fin n → α) :=
  ⟨fun i => (value i).inner⟩

/-- `From<LoanedMut<MaybeUninit<T>>> for MaybeUninit<LoanedMut<T>>`
(src/convert.rs lines 32-36): bit reinterpretation of the transparent
wrappers. -/
def loanedMutToMU {α : Type} (value : LoanedMut (MaybeUninit α)) :
    MaybeUninit (LoanedMut α) :=
  value.inner.map (fun v => ⟨v⟩)

/-- `From<MaybeUninit<LoanedMut<T>>> for LoanedMut<MaybeUninit<T>>`
(src/convert.rs lines 38-42): the reverse bit reinterpretation. -/
def loanedMutOfMU {α : Type} (value : MaybeUninit (LoanedMut α)) :
    LoanedMut (MaybeUninit α) :=
  ⟨value.map LoanedMut.inner⟩

/-- `Debug for LoanedMut` (src/loaned_mut.rs lines 102-106): writes the
fixed string, never reading the payload. -/
def LoanedMut.fmtDebug {α : Type} (_value : LoanedMut α) : String :=
  "LoanedMut(..)"

/-- C8. Structural conversion is lossless: the vector conversion yields a
handle owning the constituent payloads at the same positions and the same
length; the array conversion is the element-wise payload; the pair
conversion (via merge and placement) yields exactly the pair of payloads;
and the `MaybeUninit` conversions are mutually inverse. -/
theorem structural_conversion_lossless :
    (∀ (α : Type) (v : List (LoanedMut α)),
      (fromVecMut v).inner.length = v.length ∧
      ∀ i, (fromVecMut v).inner.get? i = (v.get? i).map LoanedMut.inner) ∧
    (∀ (α : Type) (n : Nat) (v : Fin n → LoanedMut α) (i : Fin n),
      (fromArrMut v).inner i = (v i).inner) ∧
    (∀ (α β : Type) (x : LoanedMut α) (y : LoanedMut β),
      fromPairMut (x, y) = some ⟨(x.inner, y.inner)⟩) ∧
    (∀ (α : Type) (l : LoanedMut (MaybeUninit α)),
      loanedMutOfMU (loanedMutToMU l) = l) ∧
    (∀ (α : Type) (m : MaybeUninit (LoanedMut α)),
      loanedMutToMU (loanedMutOfMU m) = m) := by
  refine ⟨fun α v => ⟨by simp [fromVecMut], fun i => by simp [fromVecMut]⟩,
    fun α n v i => rfl, fun α β x y => rfl, fun α l => ?_, fun α m => ?_⟩
  · cases l with
    | mk inner => cases inner <;> rfl
  · cases m <;> rfl

/-- C9. Merge independence: two handles over freshly allocated boxes with
minted references `r1`, `r2` merge (via the pair conversion built on
`LoanedMut::merge`) into one aggregate handle without touching the heap;
mutating through `r1` and `r2` independently and then placing the aggregate
(taking it out) yields exactly the pair of boxes whose pointees are the two
mutated payloads, and both previously-issued references still read their
own payloads after the merge. -/
theorem merge_independence (h0 : Heap) (v1 v2 : Val)
    (ws1 ws2 : List (Val → Val)) :
    (let (h1, b1) := allocBox h0 v1
     let (h2, b2) := allocBox h1 v2
     let (r1, m1) := LoanedMut.loan b1
     let (r2, m2) := LoanedMut.loan b2
     let merged := fromPairMut (m1, m2)
     let h3 := applyWrites (applyWrites h2 r1 ws1) r2 ws2
     merged = some ⟨(b1, b2)⟩ ∧
     readAddr h2 r1 = some v1 ∧ readAddr h2 r2 = some v2 ∧
     __take (⟨(b1, b2)⟩ : LoanedMut (Addr × Addr)) = some (b1, b2) ∧
     readAddr h3 b1 = some (mutate v1 ws1) ∧
     readAddr h3 b2 = some (mutate v2 ws2)) := by
  have hne : h0.length ≠ (h0 ++ [some v1]).length := by
    simp only [List.length_append, List.length_cons, List.length_nil]
    omega
  have hlt : h0.length < (h0 ++ [some v1]).length := by
    simp only [List.length_append, List.length_cons, List.length_nil]
    omega
  have hb1 : readAddr ((h0 ++ [some v1]) ++ [some v2]) h0.length = some v1 :=
    (readAddr_allocBox_lt (h0 ++ [some v1]) v2 h0.length hlt).trans
      (readAddr_allocBox h0 v1)
  have hb2 : readAddr ((h0 ++ [some v1]) ++ [some v2])
      (h0 ++ [some v1]).length = some v2 :=
    readAddr_allocBox (h0 ++ [some v1]) v2
  refine ⟨rfl, hb1, hb2, rfl, ?_, ?_⟩
  · have step1 : readAddr (applyWrites ((h0 ++ [some v1]) ++ [some v2])
        h0.length ws1) h0.length = some (mutate v1 ws1) :=
      readAddr_applyWrites_self _ _ v1 ws1 hb1
    have step2 : readAddr (applyWrites (applyWrites ((h0 ++ [some v1]) ++
        [some v2]) h0.length ws1) (h0 ++ [some v1]).length ws2) h0.length =
        readAddr (applyWrites ((h0 ++ [some v1]) ++ [some v2])
          h0.length ws1) h0.length :=
      readAddr_applyWrites_ne _ _ _ ws2 (fun hcon => hne hcon.symm)
    exact step2.trans step1
  · have step3 : readAddr (applyWrites ((h0 ++ [some v1]) ++ [some v2])
        h0.length ws1) (h0 ++ [some v1]).length =
        readAddr ((h0 ++ [some v1]) ++ [some v2]) (h0 ++ [some v1]).length :=
      readAddr_applyWrites_ne _ _ _ ws1 hne
    exact readAddr_applyWrites_self _ _ v2 ws2 (step3.trans hb2)

/-! Static layer: the Rust types involved, `mem::needs_drop`, the
`Loanable` capability marker, the crate's `From` impls, and a model of the
region parameter `'t` as an end time. -/

/-- The Rust types the crate's impls mention. `loanedTy r T` and
`loanedMutTy r T` are `Loaned<'t, T>` and `LoanedMut<'t, T>` with the
region `'t` modelled by its end time `r`. -/
inductive Ty : Type
  | u32
  | boxTy (T : Ty)
  | vecTy (T : Ty)
  | strTy
  | rcTy (T : Ty)
  | arcTy (T : Ty)
  | refTy (T : Ty)
  | refMutTy (T : Ty)
  | manuallyDropTy (T : Ty)
  | mayLeakTy (T : Ty)
  | maybeUninitTy (T : Ty)
  | optionTy (T : Ty)
  | pairTy (A B : Ty)
  | arrayTy (T : Ty) (n : Nat)
  | loanedTy (r : Nat) (T : Ty)
  | loanedMutTy (r : Nat) (T : Ty)
  deriving DecidableEq

/-- `core::mem::needs_drop` on these types: owning containers have drop
glue; plain integers and references do not; `ManuallyDrop<T>` — and
`MayLeak<T>`, which is `repr(transparent)` over `ManuallyDrop<T>`
(src/may_leak.rs lines 6-16) — never do; `MaybeUninit` never does;
`Loaned`/`LoanedMut` implement `Drop` and so always do. -/
def Ty.needsDrop : Ty → Bool
  | .u32 => false
  | .boxTy _ => true
  | .vecTy _ => true
  | .strTy => true
  | .rcTy _ => true
  | .arcTy _ => true
  | .refTy _ => false
  | .refMutTy _ => false
  | .manuallyDropTy _ => false
  | .mayLeakTy _ => false
  | .maybeUninitTy _ => false
  | .optionTy T => T.needsDrop
  | .pairTy A B => A.needsDrop || B.needsDrop
  | .arrayTy T _ => T.needsDrop
  | .loanedTy _ _ => true
  | .loanedMutTy _ _ => true

/-- Whether the payload type is the leak-escape marker (`MayLeak`,
src/may_leak.rs, i.e. a transparent `ManuallyDrop`) or a bare
`ManuallyDrop`. -/
def Ty.isLeakEscape : Ty → Bool
  | .mayLeakTy _ => true
  | .manuallyDropTy _ => true
  | _ => false

/-- The guard of `Drop for Loaned` and `Drop for LoanedMut`
(src/loaned.rs lines 119-132, src/loaned_mut.rs lines 88-101): panic when
`mem::needs_drop::<T>()` holds and the thread is not already panicking. -/
def dropDiagnosticFires (T : Ty) (threadPanicking : Bool) : Bool :=
  T.needsDrop && !threadPanicking

/-- The `Loanable` capability marker (src/loanable.rs): the unsafe trait's
impls in the crate, plus the impl for the leak-escape wrapper
(src/may_leak.rs lines 32-34, stated there for the trait under its earlier
name `Loanee`). -/
inductive Loanable : Ty → Prop
  | boxI (T : Ty) : Loanable (.boxTy T)
  | vecI (T : Ty) : Loanable (.vecTy T)
  | strI : Loanable .strTy
  | rcI (T : Ty) : Loanable (.rcTy T)
  | arcI (T : Ty) : Loanable (.arcTy T)
  | refI (T : Ty) : Loanable (.refTy T)
  | refMutI (T : Ty) : Loanable (.refMutTy T)
  | mayLeakI (T : Ty) : Loanable T → Loanable (.mayLeakTy T)

/-- The `From` impls of the crate that produce or consume loan handles
(src/loaned_mut.rs lines 81-86 and 107-111, src/loaned.rs lines 186-190,
src/convert.rs lines 3-69; tuples are represented by the pair arity).
There is no impl converting a `LoanedMut` into a `Loaned`. -/
inductive FromImpl : Ty → Ty → Prop
  | loanedToLoanedMut (r : Nat) (T : Ty) :
      FromImpl (.loanedTy r T) (.loanedMutTy r T)
  | wrapLoaned (r : Nat) (T : Ty) : FromImpl T (.loanedTy r T)
  | wrapLoanedMut (r : Nat) (T : Ty) : FromImpl T (.loanedMutTy r T)
  | boxLoaned (r : Nat) (T : Ty) :
      FromImpl (.boxTy (.loanedTy r T)) (.loanedTy r (.boxTy T))
  | boxLoanedMut (r : Nat) (T : Ty) :
      FromImpl (.boxTy (.loanedMutTy r T)) (.loanedMutTy r (.boxTy T))
  | vecLoaned (r : Nat) (T : Ty) :
      FromImpl (.vecTy (.loanedTy r T)) (.loanedTy r (.vecTy T))
  | vecLoanedMut (r : Nat) (T : Ty) :
      FromImpl (.vecTy (.loanedMutTy r T)) (.loanedMutTy r (.vecTy T))
  | arrLoaned (r : Nat) (T : Ty) (n : Nat) :
      FromImpl (.arrayTy (.loanedTy r T) n) (.loanedTy r (.arrayTy T n))
  | arrLoanedMut (r : Nat) (T : Ty) (n : Nat) :
      FromImpl (.arrayTy (.loanedMutTy r T) n) (.loanedMutTy r (.arrayTy T n))
  | muLoaned (r : Nat) (T : Ty) :
      FromImpl (.loanedTy r (.maybeUninitTy T)) (.maybeUninitTy (.loanedTy r T))
  | muLoanedRev (r : Nat) (T : Ty) :
      FromImpl (.maybeUninitTy (.loanedTy r T)) (.loanedTy r (.maybeUninitTy T))
  | muLoanedMut (r : Nat) (T : Ty) :
      FromImpl (.loanedMutTy r (.maybeUninitTy T))
        (.maybeUninitTy (.loanedMutTy r T))
  | muLoanedMutRev (r : Nat) (T : Ty) :
      FromImpl (.maybeUninitTy (.loanedMutTy r T))
        (.loanedMutTy r (.maybeUninitTy T))
  | pairLoaned (r : Nat) (A B : Ty) :
      FromImpl (.pairTy (.loanedTy r A) (.loanedTy r B))
        (.loanedTy r (.pairTy A B))
  | pairLoanedMut (r : Nat) (A B : Ty) :
      FromImpl (.pairTy (.loanedMutTy r A) (.loanedMutTy r B))
        (.loanedMutTy r (.pairTy A B))

/-- A region-annotated immutable handle: `regionEnd` is the model time at
which `'t` ends; the minted reference is usable at any time before it. -/
structure LoanedR (α : Type) where
  inner : α
  regionEnd : Nat
  deriving DecidableEq

/-- A region-annotated mutable handle. -/
structure LoanedMutR (α : Type) where
  inner : α
  regionEnd : Nat
  deriving DecidableEq

/-- `From<Loaned<'t, T>> for LoanedMut<'t, T>` (src/loaned_mut.rs lines
81-86): the impl is generic in `'t` with no bound forcing `'t` to have
expired, so it applies at any model time `now`; it moves the stored bits
unchanged and keeps the same region. Contrast `take_at` below, whose source
does demand expiry. -/
def from_loaned_at {α : Type} (_now : Nat) (value : LoanedR α) :
    Option (LoanedMutR α) :=
  some { inner := value.inner, regionEnd := value.regionEnd }

/-- `take!` (src/take.rs lines 14-20 and 43-47): the macro materializes a
`&'t mut` borrow of a unit local created at the call site, which
type-checks only when `'t` has expired at the call; modelled as a checked
precondition on the model time. -/
def take_at {α : Type} (now : Nat) (value : LoanedMutR α) : Option α :=
  if value.regionEnd ≤ now then some value.inner else none

/-- C5. Leak diagnostic raises-iff: destroying a loan handle without
placing it panics exactly when the payload type needs cleanup — which rules
out the leak-escape marker, whose transparent `ManuallyDrop` layout makes
`needs_drop` false — and the thread is not already panicking; in
particular, the `MayLeak` wrapper always suppresses the diagnostic and it
never fires during an unwind. -/
theorem drop_diagnostic_raises_iff :
    (∀ (T : Ty) (p : Bool), dropDiagnosticFires T p = true ↔
      (T.needsDrop = true ∧ T.isLeakEscape = false ∧ p = false)) ∧
    (∀ (T : Ty) (p : Bool), dropDiagnosticFires (.mayLeakTy T) p = false) ∧
    (∀ T : Ty, dropDiagnosticFires T true = false) := by
  refine ⟨fun T p => ?_, fun T p => by simp [dropDiagnosticFires, Ty.needsDrop],
    fun T => by simp [dropDiagnosticFires]⟩
  constructor
  · intro hfire
    simp only [dropDiagnosticFires, Bool.and_eq_true, Bool.not_eq_true'] at hfire
    refine ⟨hfire.1, ?_, hfire.2⟩
    cases T <;> simp_all [Ty.needsDrop, Ty.isLeakEscape]
  · rintro ⟨h1, _, h3⟩
    simp [dropDiagnosticFires, h1, h3]

theorem drop_diagnostic_raises_iff_witness :
    dropDiagnosticFires (.boxTy .u32) false = true :=
  (drop_diagnostic_raises_iff.1 (.boxTy .u32) false).2 ⟨rfl, rfl, rfl⟩

/-- C6 counterexample: converting an immutable loan whose region ends at
model time 7 succeeds already at time 0, while the region is still live —
the `From<Loaned<'t, T>> for LoanedMut<'t, T>` impl carries no requirement
that `'t` has ended. -/
theorem loaned_to_mut_before_region_end :
    from_loaned_at 0 (⟨42, 7⟩ : LoanedR Val) = some ⟨42, 7⟩ ∧
    ¬ ((7 : Nat) ≤ 0) :=
  ⟨rfl, by decide⟩

/-- C6 (amended). Conversion from an immutable loan to a mutable loan is
permitted at any time — it carries no requirement that the immutable region
`'t` has ended and it preserves the payload and the region — and there is
no conversion in the reverse direction. -/
theorem loaned_to_loanedMut_conversion :
    (∀ (now : Nat) (l : LoanedR Val),
      from_loaned_at now l = some ⟨l.inner, l.regionEnd⟩) ∧
    (∀ (r : Nat) (T : Ty), FromImpl (.loanedTy r T) (.loanedMutTy r T)) ∧
    (∀ (r r' : Nat) (T : Ty),
      ¬ FromImpl (.loanedMutTy r T) (.loanedTy r' T)) := by
  refine ⟨fun now l => rfl, fun r T => FromImpl.loanedToLoanedMut r T,
    fun r r' T h => ?_⟩
  cases h

theorem loaned_to_loanedMut_conversion_witness :
    from_loaned_at 0 (⟨5, 9⟩ : LoanedR Val) = some ⟨5, 9⟩ ∧
    FromImpl (.loanedTy 3 .u32) (.loanedMutTy 3 .u32) ∧
    ¬ FromImpl (.loanedMutTy 3 .u32) (.loanedTy 3 .u32) :=
  ⟨loaned_to_loanedMut_conversion.1 0 ⟨5, 9⟩,
   loaned_to_loanedMut_conversion.2.1 3 .u32,
   loaned_to_loanedMut_conversion.2.2 3 3 .u32⟩

/-- C7. `new` wraps a value and produces only the handle — it is defined
uniformly at every payload type, including types carrying no `Loanable`
marker (`u32` has no impl, and the crate's own `merge` example calls
`Loaned::new(1u32)`) — while the marker, demanded only by `loan` and
`borrow`, covers the dereferenceable container types (`Box` among them),
and the reference `loan` hands out is exactly the one `borrow` re-derives
from the handle. -/
theorem new_requires_no_marker :
    (∀ (α : Type) (v : α),
      (LoanedMut.new v).inner = v ∧ (Loaned.new v).inner = v) ∧
    ¬ Loanable .u32 ∧
    (∀ T : Ty, Loanable (.boxTy T)) ∧
    (∀ b : Addr, (Loaned.loan b).1 = Loaned.borrow (Loaned.loan b).2) := by
  refine ⟨fun α v => ⟨rfl, rfl⟩, fun h => ?_, fun T => Loanable.boxI T,
    fun b => rfl⟩
  cases h

theorem new_requires_no_marker_witness :
    (LoanedMut.new (5 : Val)).inner = 5 ∧ Loanable (.boxTy .u32) :=
  ⟨(new_requires_no_marker.1 Val 5).1, new_requires_no_marker.2.2.1 .u32⟩

/-- C10. Debug formatting of a `LoanedMut` is the fixed string
`LoanedMut(..)` for every payload type and value: any two handles format
identically, so formatting never reads or reveals the loaned payload. -/
theorem loanedMut_debug_constant :
    (∀ (α β : Type) (x : LoanedMut α) (y : LoanedMut β),
      LoanedMut.fmtDebug x = LoanedMut.fmtDebug y) ∧
    (∀ (α : Type) (x : LoanedMut α), LoanedMut.fmtDebug x = "LoanedMut(..)") :=
  ⟨fun _ _ _ _ => rfl, fun _ _ => rfl⟩

end LoanedModel
